import Mathlib

/-!
Verification development for the typelense repository: a shallow embedding of
the monorepo detection pipeline (src/detectors), the TypeScript diagnostic
collection pipeline (src/collectors/ts-error-collector.ts) and the TSV report
writer (src/generators/tsv-generator.ts), together with theorems settling the
specification claims about them.

External collaborators (the filesystem, the glob library, the TypeScript
compiler API) are modelled as explicit inputs: a record of read results for
the detection pipeline, and a per-unit outcome value for the type-check
engine. JavaScript strings handled by the report writer are modelled as
character lists.
-/

namespace Typelense

/-! ## Diagnostic data model (ts-error-collector.ts) -/

/-- Result of getLineAndCharacterOfPosition: a zero-based line and character. -/
structure LineChar where
  line : Nat
  character : Nat

/-- Model of a ts.SourceFile as the collector uses it: its file name and the
position-to-line/character conversion provided by the checker. -/
structure DiagFile where
  fileName : String
  lineChar : Nat → LineChar

/-- Model of ts.Diagnostic.messageText: either a plain string or a
DiagnosticMessageChain, of which the collector only reads the top-level
messageText. -/
inductive MessageText where
  | str (s : String)
  | chain (top : String)

/-- The string the collector extracts from messageText: the string itself, or
the top-level text of a chain. -/
def MessageText.flatten : MessageText → String
  | .str s => s
  | .chain top => top

/-- Model of ts.DiagnosticCategory. -/
inductive DiagCategory where
  | warning
  | error
  | suggestion
  | message
deriving DecidableEq, Repr

/-- Models the expression ts.DiagnosticCategory[diagnostic.category].toLowerCase():
the reverse enum lookup yields the names Warning, Error, Suggestion, Message and
toLowerCase maps them to these strings. -/
def DiagCategory.lowerName : DiagCategory → String
  | .warning => "warning"
  | .error => "error"
  | .suggestion => "suggestion"
  | .message => "message"

/-- Model of a raw ts.Diagnostic as read by formatDiagnostics: an optional
source file, an optional start offset, the message, the numeric code and the
category. -/
structure Diagnostic where
  file : Option DiagFile
  start : Option Nat
  messageText : MessageText
  code : Nat
  category : DiagCategory

/-- The normalized record (TypeScriptError in src/types/index.ts). -/
structure TypeScriptError where
  id : Nat
  packageName : String
  fileName : String
  errorCode : Nat
  description : String
  line : Option Nat
  column : Option Nat
  category : String
deriving DecidableEq, Repr

/-- Body of the map in formatDiagnostics for one diagnostic, given the id it
receives (the source increments the counter and uses the new value). The
parameter rel models the external path.relative(process.cwd(), name). -/
def formatDiagnostic (rel : String → String) (packageName : String) (newId : Nat)
    (d : Diagnostic) : TypeScriptError :=
  match d.file, d.start with
  | some f, some s =>
    { id := newId
      packageName := packageName
      fileName := rel f.fileName
      errorCode := d.code
      description := d.messageText.flatten
      line := some ((f.lineChar s).line + 1)
      column := some ((f.lineChar s).character + 1)
      category := d.category.lowerName }
  | _, _ =>
    { id := newId
      packageName := packageName
      fileName := "unknown"
      errorCode := d.code
      description := d.messageText.flatten
      line := Option.none
      column := Option.none
      category := d.category.lowerName }

/-- TypeScriptErrorCollector.formatDiagnostics: maps the diagnostics in order,
pre-incrementing the shared id counter once per record. The mutable counter is
threaded explicitly: the result pairs the records with the new counter value. -/
def formatDiagnostics (rel : String → String) (diagnostics : List Diagnostic)
    (packageName : String) (counter : Nat) : List TypeScriptError × Nat :=
  match diagnostics with
  | [] => ([], counter)
  | d :: rest =>
    let e := formatDiagnostic rel packageName (counter + 1) d
    let (es, c) := formatDiagnostics rel rest packageName (counter + 1)
    (e :: es, c)

/-- Outcome of the external TypeScript API calls made by
collectErrorsFromProject for one tsconfig.json.
readError models ts.readConfigFile returning a value whose error field is set,
which TypeScript produces when the file cannot be read and also when its text
fails to parse as JSON (the first parse diagnostic becomes the error field).
parsed models a successful read: configErrors is ts.parseJsonConfigFileContent
errors, and program is the result of building the program and gathering the
four diagnostic lists, or an exception thrown while doing so. -/
inductive ProjectOutcome where
  | readError (msg : String)
  | parsed (configErrors : List Diagnostic) (program : Except String (List Diagnostic))

/-- TypeScriptErrorCollector.collectErrorsFromProject. An error value models an
exception propagating out of the method; on the parsed path with a non-empty
configErrors list the method formats those errors and never builds the
program. -/
def collectErrorsFromProject (rel : String → String) (outcome : ProjectOutcome)
    (packageName : String) (counter : Nat) : Except String (List TypeScriptError × Nat) :=
  match outcome with
  | .readError msg => .error ("Failed to read tsconfig.json: " ++ msg)
  | .parsed configErrors program =>
    if configErrors.length > 0 then
      .ok (formatDiagnostics rel configErrors packageName counter)
    else
      match program with
      | .error msg => .error msg
      | .ok diagnostics => .ok (formatDiagnostics rel diagnostics packageName counter)

/-- One unit of the work list: its label and the result of findTsConfig at its
path (Option.none when no tsconfig.json exists there) together with the
engine outcome for that tsconfig. -/
structure PackageUnit where
  name : String
  tsconfig : Option ProjectOutcome

/-- TypeScriptErrorCollector.collectFromPath. The interrupted parameter is the
value of the interruption flag observed by the checks inside the method (no
suspension point separates them, so one sample is faithful). A missing
tsconfig, an observed interruption, and a caught exception all contribute zero
records and leave the counter unchanged. -/
def collectFromPath (rel : String → String) (interrupted : Bool) (u : PackageUnit)
    (counter : Nat) : List TypeScriptError × Nat :=
  if interrupted then ([], counter)
  else
    match u.tsconfig with
    | Option.none => ([], counter)
    | some outcome =>
      match collectErrorsFromProject rel outcome u.name counter with
      | .ok r => r
      | .error _ => ([], counter)

/-- The package loop of TypeScriptErrorCollector.collect. The interruption
flag is a function of a tick index that advances at each observation point:
the boundary check of unit i samples tick 2*i, and the check inside
collectFromPath (after the cooperative yield) samples tick 2*i+1. A set flag
at a boundary makes the method throw the string below. -/
def collectLoop (rel : String → String) (flag : Nat → Bool) :
    List PackageUnit → Nat → Nat → List TypeScriptError →
    Except String (List TypeScriptError)
  | [], _, _, acc => .ok acc
  | u :: rest, tick, counter, acc =>
    if flag tick then .error "Interrupted by user"
    else
      let (errs, c) := collectFromPath rel (flag (tick + 1)) u counter
      collectLoop rel flag rest (tick + 2) c (acc ++ errs)

/-- TypeScriptErrorCollector.collect. The id counter is reset to 0 and the
interruption flag cleared at the start of every call; with an empty package
list the scan root is processed as a single unit labeled root (with no
boundary check in that branch), otherwise the loop runs over the packages. -/
def collect (rel : String → String) (rootTsconfig : Option ProjectOutcome)
    (packages : List PackageUnit) (flag : Nat → Bool) :
    Except String (List TypeScriptError) :=
  if packages.length = 0 then
    .ok (collectFromPath rel (flag 0) { name := "root", tsconfig := rootTsconfig } 0).1
  else
    collectLoop rel flag packages 0 0 []

/-- The records produced by a run of the loop that is never interrupted,
written as a pure fold: each unit contributes its collectFromPath records and
threads the counter. -/
def runUnits (rel : String → String) : List PackageUnit → Nat → List TypeScriptError
  | [], _ => []
  | u :: rest, counter =>
    let (errs, c) := collectFromPath rel false u counter
    errs ++ runUnits rel rest c

/-! ## Detection pipeline data model (src/detectors, detectors/index.ts) -/

/-- The MonorepoType union from src/types/index.ts. -/
inductive MonorepoType where
  | pnpm
  | npm
  | yarn
  | lerna
  | nx
  | turbo
  | none
deriving DecidableEq, Repr

/-- The workspaces field of a manifest: an array of glob strings, or an object
whose packages field may be absent. -/
inductive Workspaces where
  | arr (patterns : List String)
  | obj (packages : Option (List String))
deriving DecidableEq, Repr

/-- The typed view of package.json used by NpmDetector. -/
structure PackageJson where
  name : Option String
  version : Option String
  workspaces : Option Workspaces
deriving DecidableEq, Repr

/-- PackageInfo from src/types/index.ts. -/
structure PackageInfo where
  name : String
  path : String
  version : Option String
deriving DecidableEq, Repr

/-- The filesystem reads the detectors perform at a given root, plus the
results of the external glob-and-read package enumerations. packageJson is the
readJSON result for the root manifest: Option.none when the file is absent or
its content fails to parse (readJSON catches and returns null, and the
detectMonorepo fallback catches the same failures). -/
structure RootFS where
  packageJson : Option PackageJson
  pnpmWorkspaceYaml : Bool
  yarnLock : Bool
  lernaJson : Bool
  nxJson : Bool
  workspaceJson : Bool
  turboJson : Bool
  pnpmPackages : List PackageInfo
  npmPackages : List PackageInfo
  lernaPackages : List PackageInfo
  nxPackages : List PackageInfo
  turboPackages : List PackageInfo

/-- JavaScript truthiness of packageJson.workspaces combined with the check
Array.isArray(workspaces) or workspaces.packages: an absent field is falsy;
an array is an array; an object is kept when its packages field is present,
and a present array is truthy in JavaScript even when it is empty. -/
def truthyWorkspaces : Option Workspaces → Bool
  | Option.none => false
  | some (.arr _) => true
  | some (.obj packages) => packages.isSome

/-- NpmDetector.detect as a function of the readJSON result for the root
manifest. -/
def npmDetectM (m : Option PackageJson) : Bool :=
  match m with
  | Option.none => false
  | some pj => truthyWorkspaces pj.workspaces

/-- NpmDetector.detect over the filesystem model. -/
def npmDetect (fs : RootFS) : Bool :=
  npmDetectM fs.packageJson

/-- YarnDetector.detect: the npm condition plus an existing yarn.lock. -/
def yarnDetect (fs : RootFS) : Bool :=
  npmDetect fs && fs.yarnLock

/-- PnpmDetector.detect: existsSync of pnpm-workspace.yaml. -/
def pnpmDetect (fs : RootFS) : Bool :=
  fs.pnpmWorkspaceYaml

/-- LernaDetector.detect: existsSync of lerna.json. -/
def lernaDetect (fs : RootFS) : Bool :=
  fs.lernaJson

/-- NxDetector.detect: existsSync of nx.json or of workspace.json. -/
def nxDetect (fs : RootFS) : Bool :=
  fs.nxJson || fs.workspaceJson

/-- Modelled from the spec: the turbo-detector source file is missing from the
repository snapshot (only detectors/index.ts references it). The spec says its
detection condition is presence of a turbo config file AND (workspaces exist
in the manifest OR a pnpm workspace file exists). -/
def turboDetect (fs : RootFS) : Bool :=
  fs.turboJson && (npmDetect fs || pnpmDetect fs)

/-- The MonorepoDetector capability set: a name, a detection predicate and a
package enumeration. -/
structure MonorepoDetector where
  name : MonorepoType
  detect : RootFS → Bool
  getPackages : RootFS → List PackageInfo

/-- The TurboDetector instance; its enumeration (the spec says it delegates to
whichever of pnpm or npm workspaces applies) is modelled by the abstract
turboPackages enumeration result. -/
def turboDetector : MonorepoDetector :=
  { name := .turbo, detect := turboDetect, getPackages := fun fs => fs.turboPackages }

/-- The PnpmDetector instance. -/
def pnpmDetector : MonorepoDetector :=
  { name := .pnpm, detect := pnpmDetect, getPackages := fun fs => fs.pnpmPackages }

/-- The YarnDetector instance; it inherits getPackages from NpmDetector. -/
def yarnDetector : MonorepoDetector :=
  { name := .yarn, detect := yarnDetect, getPackages := fun fs => fs.npmPackages }

/-- The NpmDetector instance. -/
def npmDetector : MonorepoDetector :=
  { name := .npm, detect := npmDetect, getPackages := fun fs => fs.npmPackages }

/-- The LernaDetector instance. -/
def lernaDetector : MonorepoDetector :=
  { name := .lerna, detect := lernaDetect, getPackages := fun fs => fs.lernaPackages }

/-- The NxDetector instance. -/
def nxDetector : MonorepoDetector :=
  { name := .nx, detect := nxDetect, getPackages := fun fs => fs.nxPackages }

/-- DEFAULT_DETECTORS from detectors/index.ts, in its priority order. -/
def DEFAULT_DETECTORS : List MonorepoDetector :=
  [turboDetector, pnpmDetector, yarnDetector, npmDetector, lernaDetector, nxDetector]

/-- MonorepoInfo from src/types/index.ts. -/
structure MonorepoInfo where
  isMonorepo : Bool
  type : MonorepoType
  rootPath : String
  packages : List PackageInfo
deriving DecidableEq, Repr

/-- The fallback name computation packageJson.name with the JavaScript
or-default to the string unknown: an absent name and an empty-string name are
both falsy. -/
def jsNameOr (name : Option String) : String :=
  match name with
  | Option.none => "unknown"
  | some s => if s = "" then "unknown" else s

/-- detectMonorepo from detectors/index.ts: custom detectors are tried before
the built-in ordered list, the first detector whose detect returns true
supplies the type and the packages; when none matches, the root manifest (if
readable) yields a single-package non-monorepo result, and otherwise the
result is a non-monorepo with an empty package list. -/
def detectMonorepo (rootPath : String) (fs : RootFS)
    (customDetectors : List MonorepoDetector) : MonorepoInfo :=
  let detectors := customDetectors ++ DEFAULT_DETECTORS
  match detectors.find? (fun d => d.detect fs) with
  | some d =>
    { isMonorepo := true, type := d.name, rootPath := rootPath,
      packages := d.getPackages fs }
  | Option.none =>
    match fs.packageJson with
    | some pj =>
      { isMonorepo := false, type := .none, rootPath := rootPath,
        packages := [{ name := jsNameOr pj.name, path := rootPath, version := pj.version }] }
    | Option.none =>
      { isMonorepo := false, type := .none, rootPath := rootPath, packages := [] }

/-! ## TSV generator (src/generators/tsv-generator.ts)

JavaScript strings are modelled as character lists; the single-character
regex replacements of escapeField become a map or a filter over the list. -/

/-- A JavaScript string as the generator manipulates it. -/
abbrev Str := List Char

/-- One global single-character replacement, as in field.replace over a
one-character pattern. -/
def replaceChar (pattern replacement : Char) (s : Str) : Str :=
  s.map fun c => if c = pattern then replacement else c

/-- One global single-character deletion, as in field.replace with the empty
replacement. -/
def removeChar (pattern : Char) (s : Str) : Str :=
  s.filter fun c => c ≠ pattern

/-- TsvGenerator.escapeField: tabs to spaces, then newlines to spaces, then
carriage returns removed. -/
def escapeField (field : Str) : Str :=
  removeChar '\r' (replaceChar '\n' ' ' (replaceChar '\t' ' ' field))

/-- JavaScript Array.prototype.join with a one-character separator. -/
def joinSep (sep : Char) : List Str → Str
  | [] => []
  | [p] => p
  | p :: q :: rest => p ++ sep :: joinSep sep (q :: rest)

/-- The decimal rendering of a number field (id and errorCode use toString). -/
def natToStr (n : Nat) : Str :=
  Nat.toDigits 10 n

/-- The five header column names. -/
def headerFields : List Str :=
  ["id".data, "package_name".data, "file_name".data, "error_code".data, "description".data]

/-- The header line headers.join with the tab separator. -/
def tsvHeader : Str :=
  joinSep '\t' headerFields

/-- The five field values of one record row, escaped as the generator escapes
them (the two numeric fields are rendered, the three string fields pass
through escapeField). -/
def rowFields (e : TypeScriptError) : List Str :=
  [natToStr e.id, escapeField e.packageName.data, escapeField e.fileName.data,
   natToStr e.errorCode, escapeField e.description.data]

/-- One record row row.join with the tab separator. -/
def tsvRow (e : TypeScriptError) : Str :=
  joinSep '\t' (rowFields e)

/-- TsvGenerator.generate: the content written to the output file, the header
line and one line per record joined by newlines. -/
def generate (errors : List TypeScriptError) : Str :=
  joinSep '\n' (tsvHeader :: errors.map tsvRow)

/-- Re-splitting a string at every occurrence of a separator character, the
inverse reading used by the round-trip property (String.prototype.split with a
one-character separator). -/
def splitChar (sep : Char) (s : Str) : List Str :=
  s.foldr
    (fun c acc =>
      if c = sep then [] :: acc
      else
        match acc with
        | [] => [[c]]
        | h :: t => (c :: h) :: t)
    [[]]

/-- A field value free of the delimiter, newline and carriage-return
characters. -/
def cleanField (f : Str) : Prop :=
  '\t' ∉ f ∧ '\n' ∉ f ∧ '\r' ∉ f

/-! ## Identifier sequencing lemmas -/

theorem formatDiagnostic_id (rel : String → String) (pkg : String) (n : Nat)
    (d : Diagnostic) : (formatDiagnostic rel pkg n d).id = n := by
  unfold formatDiagnostic
  cases d.file <;> cases d.start <;> rfl

theorem formatDiagnostic_packageName (rel : String → String) (pkg : String) (n : Nat)
    (d : Diagnostic) : (formatDiagnostic rel pkg n d).packageName = pkg := by
  unfold formatDiagnostic
  cases d.file <;> cases d.start <;> rfl

theorem formatDiagnostics_spec (rel : String → String) (ds : List Diagnostic)
    (pkg : String) : ∀ c : Nat,
    (formatDiagnostics rel ds pkg c).1.length = ds.length ∧
    (formatDiagnostics rel ds pkg c).2 = c + ds.length ∧
    (formatDiagnostics rel ds pkg c).1.map (fun e => e.id) =
      List.range' (c + 1) ds.length := by
  induction ds with
  | nil => intro c; refine ⟨rfl, by simp [formatDiagnostics], by simp [formatDiagnostics]⟩
  | cons d rest ih =>
    intro c
    obtain ⟨hlen, hc, hids⟩ := ih (c + 1)
    refine ⟨?_, ?_, ?_⟩
    · simp [formatDiagnostics, hlen]
    · simp only [formatDiagnostics]
      simpa [hc] using by omega
    · simp only [formatDiagnostics, List.map_cons, List.length_cons]
      rw [List.range'_succ, formatDiagnostic_id, hids]

theorem collectErrorsFromProject_ok (rel : String → String) (outcome : ProjectOutcome)
    (pkg : String) (c : Nat) (es : List TypeScriptError) (c' : Nat)
    (h : collectErrorsFromProject rel outcome pkg c = .ok (es, c')) :
    c' = c + es.length ∧ es.map (fun e => e.id) = List.range' (c + 1) es.length := by
  cases outcome with
  | readError msg => simp [collectErrorsFromProject] at h
  | parsed configErrors program =>
    simp only [collectErrorsFromProject] at h
    by_cases hg : configErrors.length > 0
    · rw [if_pos hg] at h
      obtain ⟨h1, h2⟩ := Prod.mk.injEq .. ▸ (Except.ok.injEq .. ▸ h)
      obtain ⟨hlen, hc, hids⟩ := formatDiagnostics_spec rel configErrors pkg c
      subst h1; subst h2
      exact ⟨by rw [hc, hlen], by rw [hids, hlen]⟩
    · rw [if_neg hg] at h
      cases program with
      | error msg => simp at h
      | ok diagnostics =>
        obtain ⟨h1, h2⟩ := Prod.mk.injEq .. ▸ (Except.ok.injEq .. ▸ h)
        obtain ⟨hlen, hc, hids⟩ := formatDiagnostics_spec rel diagnostics pkg c
        subst h1; subst h2
        exact ⟨by rw [hc, hlen], by rw [hids, hlen]⟩

theorem collectFromPath_spec (rel : String → String) (i : Bool) (u : PackageUnit)
    (c : Nat) :
    (collectFromPath rel i u c).2 = c + (collectFromPath rel i u c).1.length ∧
    (collectFromPath rel i u c).1.map (fun e => e.id) =
      List.range' (c + 1) (collectFromPath rel i u c).1.length := by
  unfold collectFromPath
  by_cases hi : i
  · simp [hi]
  · simp only [hi, if_false, Bool.false_eq_true]
    cases htc : u.tsconfig with
    | none => simp
    | some outcome =>
      simp only []
      cases hcall : collectErrorsFromProject rel outcome u.name c with
      | error msg => simp
      | ok r =>
        obtain ⟨es, c'⟩ := r
        obtain ⟨h1, h2⟩ := collectErrorsFromProject_ok rel outcome u.name c es c' hcall
        simpa using ⟨h1, h2⟩

theorem collectLoop_ids (rel : String → String) (flag : Nat → Bool)
    (us : List PackageUnit) : ∀ tick c acc,
    acc.length = c →
    acc.map (fun e => e.id) = List.range' 1 c →
    ∀ errs, collectLoop rel flag us tick c acc = .ok errs →
    errs.map (fun e => e.id) = List.range' 1 errs.length := by
  induction us with
  | nil =>
    intro tick c acc hlen hids errs h
    simp only [collectLoop, Except.ok.injEq] at h
    subst h; rw [hids, hlen]
  | cons u rest ih =>
    intro tick c acc hlen hids errs h
    simp only [collectLoop] at h
    by_cases hf : flag tick
    · simp [hf] at h
    · rw [if_neg hf] at h
      obtain ⟨h1, h2⟩ := collectFromPath_spec rel (flag (tick + 1)) u c
      refine ih (tick + 2) _ _ ?_ ?_ errs h
      · rw [List.length_append, hlen, h1]
      · rw [List.map_append, hids, h2, h1]
        have hr := List.range'_append_1 1 c (collectFromPath rel (flag (tick + 1)) u c).1.length
        rw [Nat.add_comm 1 c] at hr
        rw [hr, Nat.add_comm]

/-- Claim C1: for every invocation of collect that returns a record list, the
ids of that list are exactly the sequence 1..N, with no gaps and no repeats,
because the counter starts from 0 for the invocation and is incremented once
per normalized diagnostic. -/
theorem C1_collect_ids_one_to_N (rel : String → String)
    (rootTsconfig : Option ProjectOutcome) (packages : List PackageUnit)
    (flag : Nat → Bool) (errs : List TypeScriptError)
    (h : collect rel rootTsconfig packages flag = .ok errs) :
    errs.map (fun e => e.id) = List.range' 1 errs.length := by
  unfold collect at h
  by_cases hp : packages.length = 0
  · rw [if_pos hp] at h
    obtain ⟨_, h2⟩ := collectFromPath_spec rel (flag 0)
      { name := "root", tsconfig := rootTsconfig } 0
    obtain rfl : (collectFromPath rel (flag 0) { name := "root", tsconfig := rootTsconfig } 0).1 = errs := by
      exact Except.ok.injEq .. ▸ h
    simpa using h2
  · rw [if_neg hp] at h
    exact collectLoop_ids rel flag packages 0 0 [] rfl rfl errs h

/-! ## Concrete sample data for witnesses and counterexamples -/

/-- A diagnostic that carries no source location. -/
def sampleDiag (code : Nat) : Diagnostic :=
  { file := Option.none, start := Option.none, messageText := .str "sample message",
    code := code, category := .error }

/-- A unit whose type check yields one diagnostic. -/
def unitA : PackageUnit :=
  { name := "a", tsconfig := some (.parsed [] (.ok [sampleDiag 100])) }

/-- A unit whose type check yields two diagnostics. -/
def unitB : PackageUnit :=
  { name := "b", tsconfig := some (.parsed [] (.ok [sampleDiag 200, sampleDiag 201])) }

/-- A unit whose tsconfig read throws: readConfigFile reported an error, as it
does for a present file whose text is not parseable JSON. -/
def throwingUnit : PackageUnit :=
  { name := "broken", tsconfig := some (.readError "Unexpected end of JSON input") }

/-- A present tsconfig.json whose JSON text fails to parse: the external
readConfigFile call reports the first parse diagnostic in its error field. -/
def brokenJsonUnit : PackageUnit :=
  { name := "pkg", tsconfig := some (.readError "Unexpected token in JSON at position 25") }

/-- The identity stand-in for path.relative in concrete runs. -/
def idFun : String → String := fun s => s

/-- An interruption flag that is never set. -/
def neverFlag : Nat → Bool := fun _ => false

/-- An interruption flag set right after the first unit finished: it is first
observed at the boundary check of the second unit (tick 2). -/
def flagAfterFirstUnit : Nat → Bool := fun t => decide (2 ≤ t)

/-- Witness for C1: a concrete two-unit run with three diagnostics yields the
ids 1, 2, 3. -/
theorem C1_collect_ids_one_to_N_witness :
    (runUnits idFun [unitA, unitB] 0).map (fun e => e.id) =
      List.range' 1 (runUnits idFun [unitA, unitB] 0).length :=
  C1_collect_ids_one_to_N idFun Option.none [unitA, unitB] neverFlag
    (runUnits idFun [unitA, unitB] 0) (by rfl)

/-! ## Interruption behavior -/

theorem collectLoop_no_interrupt (rel : String → String) (flag : Nat → Bool)
    (hflag : ∀ t, flag t = false) :
    ∀ (us : List PackageUnit) (tick c : Nat) (acc : List TypeScriptError),
    collectLoop rel flag us tick c acc = .ok (acc ++ runUnits rel us c) := by
  intro us
  induction us with
  | nil => intro tick c acc; simp [collectLoop, runUnits]
  | cons u rest ih =>
    intro tick c acc
    simp only [collectLoop, hflag, if_false, Bool.false_eq_true, runUnits]
    rw [ih]
    simp [List.append_assoc]

theorem collect_no_interrupt (rel : String → String)
    (rootTsconfig : Option ProjectOutcome) (packages : List PackageUnit)
    (flag : Nat → Bool) (hflag : ∀ t, flag t = false) (hne : packages ≠ []) :
    collect rel rootTsconfig packages flag = .ok (runUnits rel packages 0) := by
  unfold collect
  rw [if_neg (by simpa using hne)]
  simpa using collectLoop_no_interrupt rel flag hflag packages 0 0 []

theorem collectLoop_interrupted (rel : String → String) (flag : Nat → Bool) :
    ∀ (us : List PackageUnit) (i tick c : Nat) (acc : List TypeScriptError),
    i < us.length → flag (tick + 2 * i) = true →
    collectLoop rel flag us tick c acc = .error "Interrupted by user" := by
  intro us
  induction us with
  | nil => intro i tick c acc hi; simp at hi
  | cons u rest ih =>
    intro i tick c acc hi hflag
    by_cases hf : flag tick
    · simp [collectLoop, hf]
    · cases i with
      | zero => simp only [Nat.mul_zero, Nat.add_zero] at hflag; exact absurd hflag hf
      | succ j =>
        simp only [collectLoop, hf, if_false, Bool.false_eq_true]
        refine ih j (tick + 2) _ _ (by simpa using Nat.lt_of_succ_lt_succ hi) ?_
        have harith : tick + 2 * (j + 1) = tick + 2 + 2 * j := by omega
        rw [harith] at hflag
        exact hflag

/-- Counterexample to claim C2: with two units and the interruption flag
observed set at the boundary of the second, collect does not return the
records accumulated so far as a normal result; it signals the error
Interrupted by user (which the CLI maps to exit code 130). -/
theorem C2_counterexample :
    collect idFun Option.none [unitA, unitB] flagAfterFirstUnit =
      .error "Interrupted by user" ∧
    collect idFun Option.none [unitA, unitB] flagAfterFirstUnit ≠
      .ok (runUnits idFun [unitA] 0) := by
  refine ⟨rfl, ?_⟩
  intro h
  exact Except.noConfusion h

/-- Claim C2 as amended: when the interruption flag is observed set at the
boundary check of some unit, collect stops processing further units, but it
signals the error Interrupted by user rather than returning the accumulated
records as a normal partial result; no record of any unit is returned. -/
theorem C2_interrupt_raises_error (rel : String → String)
    (rootTsconfig : Option ProjectOutcome) (packages : List PackageUnit)
    (flag : Nat → Bool) (i : Nat) (hi : i < packages.length)
    (hflag : flag (2 * i) = true) :
    collect rel rootTsconfig packages flag = .error "Interrupted by user" := by
  unfold collect
  rw [if_neg (by omega)]
  refine collectLoop_interrupted rel flag packages i 0 0 [] hi ?_
  simpa using hflag

/-- Witness for the amended C2: a three-unit run whose flag is first observed
set at the second boundary errors out. -/
theorem C2_interrupt_raises_error_witness :
    collect idFun Option.none [unitA, throwingUnit, unitB] flagAfterFirstUnit =
      .error "Interrupted by user" :=
  C2_interrupt_raises_error idFun Option.none [unitA, throwingUnit, unitB]
    flagAfterFirstUnit 1 (by decide) (by decide)

/-! ## Exception containment at the unit boundary -/

/-- A project outcome on which collectErrorsFromProject throws: the tsconfig
read reported an error, or the config parsed cleanly (no config errors) and
the program construction or diagnostic gathering threw. -/
def projectOutcomeThrows : ProjectOutcome → Bool
  | .readError _ => true
  | .parsed configErrors program =>
    configErrors.isEmpty &&
      (match program with
       | .error _ => true
       | .ok _ => false)

theorem collectFromPath_of_throws (rel : String → String) (name : String)
    (out : ProjectOutcome) (c : Nat) (h : projectOutcomeThrows out = true) :
    collectFromPath rel false { name := name, tsconfig := some out } c = ([], c) := by
  cases out with
  | readError msg => rfl
  | parsed configErrors program =>
    simp only [projectOutcomeThrows, Bool.and_eq_true, List.isEmpty_iff] at h
    obtain ⟨hce, hprog⟩ := h
    subst hce
    cases program with
    | ok ds => simp at hprog
    | error msg => rfl

theorem runUnits_skip (rel : String → String) (name : String)
    (out : ProjectOutcome) (h : projectOutcomeThrows out = true) :
    ∀ (pre post : List PackageUnit) (c : Nat),
    runUnits rel (pre ++ { name := name, tsconfig := some out } :: post) c =
      runUnits rel (pre ++ post) c := by
  intro pre
  induction pre with
  | nil =>
    intro post c
    simp [runUnits, collectFromPath_of_throws rel name out c h]
  | cons u us ih =>
    intro post c
    simp only [List.cons_append, runUnits]
    exact congrArg (fun t => (collectFromPath rel false u c).1 ++ t)
      (ih post (collectFromPath rel false u c).2)

/-- Claim C6: an exception thrown while reading or parsing the tsconfig or
while running the type check is caught at the unit boundary: the unit
contributes zero records and leaves the counter unchanged, the run does not
abort, and the full result equals the uninterrupted run over the remaining
units, so every subsequent unit still contributes its records. -/
theorem C6_unit_exception_contained (rel : String → String)
    (rootTsconfig : Option ProjectOutcome) (name : String) (out : ProjectOutcome)
    (pre post : List PackageUnit) (c : Nat)
    (h : projectOutcomeThrows out = true) :
    collectFromPath rel false { name := name, tsconfig := some out } c = ([], c) ∧
    collect rel rootTsconfig (pre ++ { name := name, tsconfig := some out } :: post)
        (fun _ => false) =
      .ok (runUnits rel (pre ++ post) 0) := by
  refine ⟨collectFromPath_of_throws rel name out c h, ?_⟩
  rw [collect_no_interrupt rel rootTsconfig _ _ (fun t => rfl) (by simp)]
  rw [runUnits_skip rel name out h]

/-- Witness for C6: in a concrete run a throwing middle unit contributes
nothing and both neighbors are processed. -/
theorem C6_unit_exception_contained_witness :
    collectFromPath idFun false throwingUnit 0 = ([], 0) ∧
    collect idFun Option.none [unitA, throwingUnit, unitB] (fun _ => false) =
      .ok (runUnits idFun [unitA, unitB] 0) :=
  C6_unit_exception_contained idFun Option.none "broken"
    (.readError "Unexpected end of JSON input") [unitA] [unitB] 0 (by rfl)

/-! ## Configuration parse errors -/

/-- Counterexample to claim C4: a unit whose tsconfig.json is present but
whose text is structurally malformed makes the external readConfigFile call
report an error, the collector throws, the exception is caught at the unit
boundary, and the unit contributes zero records to a run that otherwise
continues: the parse failure is not surfaced as DiagnosticRecords. -/
theorem C4_counterexample :
    collectFromPath idFun false brokenJsonUnit 0 = ([], 0) ∧
    collect idFun Option.none [brokenJsonUnit, unitA] neverFlag =
      .ok (runUnits idFun [unitA] 0) := by
  refine ⟨rfl, ?_⟩
  rfl

/-- Claim C4 as amended: configuration errors reported by the config content
parse step (parseJsonConfigFileContent) are normalized into ordinary
DiagnosticRecords with sequence ids that appear in the result, but when the
initial file read itself reports an error (readConfigFile error, set for an
unreadable file and also for JSON-malformed text), the unit throws, the
exception is caught at the unit boundary and the unit contributes zero
records. -/
theorem C4_config_errors_normalized :
    (∀ (rel : String → String) (name : String) (configErrors : List Diagnostic)
       (program : Except String (List Diagnostic)) (c : Nat),
       configErrors ≠ [] →
       collectFromPath rel false
           { name := name, tsconfig := some (.parsed configErrors program) } c =
         formatDiagnostics rel configErrors name c ∧
       (formatDiagnostics rel configErrors name c).1.length = configErrors.length ∧
       (formatDiagnostics rel configErrors name c).1.map (fun e => e.id) =
         List.range' (c + 1) configErrors.length) ∧
    (∀ (rel : String → String) (name msg : String) (c : Nat),
       collectFromPath rel false { name := name, tsconfig := some (.readError msg) } c =
         ([], c)) := by
  constructor
  · intro rel name configErrors program c hne
    obtain ⟨hlen, hc, hids⟩ := formatDiagnostics_spec rel configErrors name c
    refine ⟨?_, hlen, hids⟩
    have hpos : configErrors.length > 0 := List.length_pos.mpr hne
    simp [collectFromPath, collectErrorsFromProject, hpos]
  · intro rel name msg c
    rfl

/-- Witness for the amended C4: a unit with one config parse error yields that
error as a record, and a unit whose read throws yields none. -/
theorem C4_config_errors_normalized_witness :
    collectFromPath idFun false
        { name := "p", tsconfig := some (.parsed [sampleDiag 5] (.ok [])) } 0 =
      formatDiagnostics idFun [sampleDiag 5] "p" 0 ∧
    collectFromPath idFun false brokenJsonUnit 3 = ([], 3) :=
  ⟨(C4_config_errors_normalized.1 idFun "p" [sampleDiag 5] (.ok []) 0 (by simp)).1,
   C4_config_errors_normalized.2 idFun "pkg" "Unexpected token in JSON at position 25" 3⟩

/-! ## Position normalization -/

/-- Claim C8: when a diagnostic carries a source file and a start offset, the
record holds the 0-based line and character each converted to 1-based;
otherwise line and column are absent and the file name is the string
unknown. -/
theorem C8_position_normalization (rel : String → String) (pkg : String) (n : Nat)
    (d : Diagnostic) :
    (∀ (f : DiagFile) (s : Nat), d.file = some f → d.start = some s →
       (formatDiagnostic rel pkg n d).line = some ((f.lineChar s).line + 1) ∧
       (formatDiagnostic rel pkg n d).column = some ((f.lineChar s).character + 1)) ∧
    (d.file = Option.none ∨ d.start = Option.none →
       (formatDiagnostic rel pkg n d).line = Option.none ∧
       (formatDiagnostic rel pkg n d).column = Option.none ∧
       (formatDiagnostic rel pkg n d).fileName = "unknown") := by
  constructor
  · intro f s hf hs
    simp [formatDiagnostic, hf, hs]
  · intro hcase
    rcases hcase with hf | hs
    · cases hstart : d.start <;> simp [formatDiagnostic, hf, hstart]
    · cases hfile : d.file <;> simp [formatDiagnostic, hs, hfile]

/-- A diagnostic with a source position, for the C8 witness. -/
def locDiag : Diagnostic :=
  { file := some { fileName := "src/a.ts", lineChar := fun _ => { line := 3, character := 7 } },
    start := some 42, messageText := .str "boom", code := 2322, category := .error }

/-- Witness for C8: a concrete located diagnostic gets line 4 and column 8,
and a location-free one gets the unknown file name. -/
theorem C8_position_normalization_witness :
    (formatDiagnostic idFun "p" 1 locDiag).line = some 4 ∧
    (formatDiagnostic idFun "p" 1 locDiag).column = some 8 ∧
    (formatDiagnostic idFun "p" 1 (sampleDiag 7)).fileName = "unknown" :=
  ⟨((C8_position_normalization idFun "p" 1 locDiag).1 _ 42 rfl rfl).1,
   ((C8_position_normalization idFun "p" 1 locDiag).1 _ 42 rfl rfl).2,
   ((C8_position_normalization idFun "p" 1 (sampleDiag 7)).2 (Or.inl rfl)).2.2⟩

/-! ## Detection claims -/

/-- A manifest whose workspaces field is an object carrying an empty packages
array. -/
def emptyPackagesManifest : Option PackageJson :=
  some { name := some "r", version := Option.none, workspaces := some (.obj (some [])) }

/-- The npm detection condition exactly as claim C3 words it: the workspaces
field is an array, or an object whose packages array is non-empty. -/
def npmDetectClaim (m : Option PackageJson) : Bool :=
  match m with
  | Option.none => false
  | some pj =>
    match pj.workspaces with
    | some (.arr _) => true
    | some (.obj (some pkgs)) => decide (pkgs ≠ [])
    | _ => false

/-- Counterexample to claim C3: on a manifest whose workspaces field is an
object with an empty packages array, the code returns true (an empty array is
truthy in JavaScript) while the claim requires false. -/
theorem C3_counterexample :
    npmDetectM emptyPackagesManifest = true ∧
    npmDetectClaim emptyPackagesManifest = false :=
  ⟨rfl, rfl⟩

/-- Claim C3 as amended: detect returns true exactly when the manifest is
present and parseable and its workspaces field is an array, or an object
whose packages field is present — even as an empty array; it returns false
when the manifest is absent or unparseable. -/
theorem C3_npm_detect_characterization (m : Option PackageJson) :
    npmDetectM m = true ↔
      ∃ pj, m = some pj ∧
        ((∃ patterns, pj.workspaces = some (.arr patterns)) ∨
         (∃ pkgs, pj.workspaces = some (.obj (some pkgs)))) := by
  cases m with
  | none => simp [npmDetectM]
  | some pj =>
    cases hw : pj.workspaces with
    | none => simp [npmDetectM, truthyWorkspaces, hw]
    | some w =>
      cases w with
      | arr patterns => simp [npmDetectM, truthyWorkspaces, hw]
      | obj packages => cases packages <;> simp [npmDetectM, truthyWorkspaces, hw]

theorem find?_append_first {α : Type} (p : α → Bool) :
    ∀ (pre : List α) (d : α) (post : List α),
    (∀ e ∈ pre, p e = false) → p d = true →
    (pre ++ d :: post).find? p = some d := by
  intro pre
  induction pre with
  | nil => intro d post _ hd; simpa using List.find?_cons_of_pos _ hd
  | cons a as ih =>
    intro d post hpre hd
    have ha : p a = false := hpre a (by simp)
    rw [List.cons_append, List.find?_cons_of_neg _ (by simp [ha])]
    exact ih d post (fun e he => hpre e (by simp [he])) hd

/-- Claim C5: the built-in priority order is turbo, pnpm, yarn, npm, lerna,
nx; custom detectors come before the built-in list; the first detector whose
detect returns true determines the result type and packages; and a root
matching both the turbo and the npm conditions is reported as turbo, never
npm. -/
theorem C5_detector_priority :
    DEFAULT_DETECTORS.map (fun d => d.name) =
      [MonorepoType.turbo, MonorepoType.pnpm, MonorepoType.yarn,
       MonorepoType.npm, MonorepoType.lerna, MonorepoType.nx] ∧
    (∀ (root : String) (fs : RootFS) (custom pre post : List MonorepoDetector)
       (d : MonorepoDetector),
       custom ++ DEFAULT_DETECTORS = pre ++ d :: post →
       (∀ e ∈ pre, e.detect fs = false) → d.detect fs = true →
       detectMonorepo root fs custom =
         { isMonorepo := true, type := d.name, rootPath := root,
           packages := d.getPackages fs }) ∧
    (∀ (root : String) (fs : RootFS),
       turboDetect fs = true → npmDetect fs = true →
       (detectMonorepo root fs []).type = MonorepoType.turbo ∧
       (detectMonorepo root fs []).type ≠ MonorepoType.npm) := by
  refine ⟨rfl, ?_, ?_⟩
  · intro root fs custom pre post d hdec hpre hd
    simp only [detectMonorepo]
    rw [hdec, find?_append_first _ pre d post hpre hd]
  · intro root fs ht _
    have hfind : (([] : List MonorepoDetector) ++ DEFAULT_DETECTORS).find?
        (fun d => d.detect fs) = some turboDetector := by
      rw [List.nil_append]
      exact find?_append_first _ [] turboDetector
        [pnpmDetector, yarnDetector, npmDetector, lernaDetector, nxDetector]
        (by simp) (by simpa [turboDetector] using ht)
    simp only [detectMonorepo, hfind]
    exact ⟨rfl, by simp [turboDetector]⟩

/-- A root that satisfies both the turbo condition and the npm condition. -/
def fsTurboNpm : RootFS :=
  { packageJson :=
      some { name := some "r", version := Option.none, workspaces := some (.arr ["packages/*"]) },
    pnpmWorkspaceYaml := false, yarnLock := false, lernaJson := false,
    nxJson := false, workspaceJson := false, turboJson := true,
    pnpmPackages := [], npmPackages := [], lernaPackages := [],
    nxPackages := [], turboPackages := [] }

/-- Witness for C5: on a concrete root satisfying both the turbo and the npm
conditions, the result is the turbo monorepo, not npm. -/
theorem C5_detector_priority_witness :
    detectMonorepo "/repo" fsTurboNpm [] =
      { isMonorepo := true, type := MonorepoType.turbo, rootPath := "/repo",
        packages := [] } ∧
    (detectMonorepo "/repo" fsTurboNpm []).type ≠ MonorepoType.npm :=
  ⟨C5_detector_priority.2.1 "/repo" fsTurboNpm [] []
      [pnpmDetector, yarnDetector, npmDetector, lernaDetector, nxDetector]
      turboDetector rfl (by simp) (by rfl),
   (C5_detector_priority.2.2 "/repo" fsTurboNpm (by rfl) (by rfl)).2⟩

/-- Claim C9: when no detector matches, a readable root manifest named foo
yields a single-package non-monorepo result, and an absent or unreadable
manifest yields a non-monorepo result with an empty package list, without
raising an error. -/
theorem C9_fallback_single_package (root : String) (fs : RootFS)
    (custom : List MonorepoDetector)
    (hnone : ∀ d ∈ custom ++ DEFAULT_DETECTORS, d.detect fs = false) :
    (∀ pj, fs.packageJson = some pj → pj.name = some "foo" →
       detectMonorepo root fs custom =
         { isMonorepo := false, type := MonorepoType.none, rootPath := root,
           packages := [{ name := "foo", path := root, version := pj.version }] }) ∧
    (fs.packageJson = Option.none →
       detectMonorepo root fs custom =
         { isMonorepo := false, type := MonorepoType.none, rootPath := root,
           packages := [] }) := by
  have hfind : (custom ++ DEFAULT_DETECTORS).find? (fun d => d.detect fs) =
      Option.none :=
    List.find?_eq_none.mpr (fun d hd => by simp [hnone d hd])
  constructor
  · intro pj hpj hname
    simp only [detectMonorepo, hfind, hpj, hname]
    rfl
  · intro hpj
    simp only [detectMonorepo, hfind, hpj]

/-- A root with no monorepo markers whose manifest is named foo. -/
def fsFoo : RootFS :=
  { packageJson :=
      some { name := some "foo", version := some "1.0.0", workspaces := Option.none },
    pnpmWorkspaceYaml := false, yarnLock := false, lernaJson := false,
    nxJson := false, workspaceJson := false, turboJson := false,
    pnpmPackages := [], npmPackages := [], lernaPackages := [],
    nxPackages := [], turboPackages := [] }

/-- A root with no markers and no readable manifest. -/
def fsPlain : RootFS :=
  { packageJson := Option.none,
    pnpmWorkspaceYaml := false, yarnLock := false, lernaJson := false,
    nxJson := false, workspaceJson := false, turboJson := false,
    pnpmPackages := [], npmPackages := [], lernaPackages := [],
    nxPackages := [], turboPackages := [] }

/-- Witness for C9 on concrete roots: with a manifest named foo the result is
one root package, and with no manifest the package list is empty. -/
theorem C9_fallback_single_package_witness :
    detectMonorepo "/r" fsFoo [] =
      { isMonorepo := false, type := MonorepoType.none, rootPath := "/r",
        packages := [{ name := "foo", path := "/r", version := some "1.0.0" }] } ∧
    detectMonorepo "/r" fsPlain [] =
      { isMonorepo := false, type := MonorepoType.none, rootPath := "/r",
        packages := [] } :=
  ⟨(C9_fallback_single_package "/r" fsFoo [] (by decide)).1
      { name := some "foo", version := some "1.0.0", workspaces := Option.none }
      rfl rfl,
   (C9_fallback_single_package "/r" fsPlain [] (by decide)).2 rfl⟩

/-- A capability-conformant custom detector that carries the none tag and
always detects. -/
def noneDetector : MonorepoDetector :=
  { name := MonorepoType.none, detect := fun _ => true, getPackages := fun _ => [] }

/-- Counterexample to claim C10: the detector interface allows a custom
detector named none, and detectMonorepo then returns isMonorepo true with
type none, so the equivalence between isMonorepo and type does not hold for
every detector list. -/
theorem C10_counterexample :
    (detectMonorepo "/r" fsPlain [noneDetector]).isMonorepo = true ∧
    (detectMonorepo "/r" fsPlain [noneDetector]).type = MonorepoType.none :=
  ⟨rfl, rfl⟩

theorem formatDiagnostics_packageName (rel : String → String)
    (ds : List Diagnostic) (pkg : String) : ∀ (c : Nat),
    ∀ e ∈ (formatDiagnostics rel ds pkg c).1, e.packageName = pkg := by
  induction ds with
  | nil => intro c e he; simp [formatDiagnostics] at he
  | cons d rest ih =>
    intro c e he
    simp only [formatDiagnostics] at he
    rcases List.mem_cons.mp he with h | h
    · subst h; exact formatDiagnostic_packageName rel pkg (c + 1) d
    · exact ih (c + 1) e h

theorem collectFromPath_packageName (rel : String → String) (i : Bool)
    (u : PackageUnit) (c : Nat) :
    ∀ e ∈ (collectFromPath rel i u c).1, e.packageName = u.name := by
  unfold collectFromPath
  by_cases hi : i
  · simp [hi]
  · simp only [hi, if_false, Bool.false_eq_true]
    cases htc : u.tsconfig with
    | none => simp
    | some outcome =>
      simp only []
      cases hcall : collectErrorsFromProject rel outcome u.name c with
      | error msg => simp
      | ok r =>
        intro e he
        cases outcome with
        | readError msg => simp [collectErrorsFromProject] at hcall
        | parsed configErrors program =>
          simp only [collectErrorsFromProject] at hcall
          by_cases hg : configErrors.length > 0
          · rw [if_pos hg] at hcall
            obtain rfl := Except.ok.injEq .. ▸ hcall
            exact formatDiagnostics_packageName rel configErrors u.name c e he
          · rw [if_neg hg] at hcall
            cases program with
            | error msg => simp at hcall
            | ok diagnostics =>
              obtain rfl := Except.ok.injEq .. ▸ hcall
              exact formatDiagnostics_packageName rel diagnostics u.name c e he

/-- Claim C10 as amended: provided no supplied custom detector carries the
none tag (true of every built-in detector), the result satisfies isMonorepo
exactly when type is not none; a detector that matches but enumerates zero
packages still yields isMonorepo true with its type and an empty package
list; and a collect run over an empty package list processes the scan root as
a single unit labeled root, so every resulting record carries that label. -/
theorem C10_isMonorepo_iff_type_not_none :
    (∀ (root : String) (fs : RootFS) (custom : List MonorepoDetector),
       (∀ d ∈ custom, d.name ≠ MonorepoType.none) →
       ((detectMonorepo root fs custom).isMonorepo = true ↔
        (detectMonorepo root fs custom).type ≠ MonorepoType.none)) ∧
    (∀ (root : String) (fs : RootFS) (custom pre post : List MonorepoDetector)
       (d : MonorepoDetector),
       custom ++ DEFAULT_DETECTORS = pre ++ d :: post →
       (∀ e ∈ pre, e.detect fs = false) → d.detect fs = true →
       d.getPackages fs = [] →
       detectMonorepo root fs custom =
         { isMonorepo := true, type := d.name, rootPath := root, packages := [] }) ∧
    (∀ (rel : String → String) (rootTsconfig : Option ProjectOutcome)
       (flag : Nat → Bool) (errs : List TypeScriptError),
       collect rel rootTsconfig [] flag = .ok errs →
       ∀ e ∈ errs, e.packageName = "root") := by
  refine ⟨?_, ?_, ?_⟩
  · intro root fs custom hc
    simp only [detectMonorepo]
    cases hfind : (custom ++ DEFAULT_DETECTORS).find? (fun d => d.detect fs) with
    | none => cases hpj : fs.packageJson <;> simp
    | some d =>
      have hd : d ∈ custom ++ DEFAULT_DETECTORS := List.mem_of_find?_eq_some hfind
      have hdefault : ∀ e ∈ DEFAULT_DETECTORS, e.name ≠ MonorepoType.none := by decide
      have hname : d.name ≠ MonorepoType.none := by
        rcases List.mem_append.mp hd with h | h
        · exact hc d h
        · exact hdefault d h
      simp [hname]
  · intro root fs custom pre post d hdec hpre hd hpkgs
    simp only [detectMonorepo]
    rw [hdec, find?_append_first _ pre d post hpre hd]
    show ({ isMonorepo := true, type := d.name, rootPath := root,
            packages := d.getPackages fs } : MonorepoInfo) = _
    rw [hpkgs]
  · intro rel rootTsconfig flag errs h e he
    have hx : (collectFromPath rel (flag 0)
        { name := "root", tsconfig := rootTsconfig } 0).1 = errs := Except.ok.inj h
    rw [← hx] at he
    exact collectFromPath_packageName rel (flag 0)
      { name := "root", tsconfig := rootTsconfig } 0 e he

/-- Witness for the amended C10: the equivalence at a concrete root with no
custom detectors, a concrete matching detector with an empty enumeration, and
a concrete root-unit record labeled root. -/
theorem C10_isMonorepo_iff_type_not_none_witness :
    ((detectMonorepo "/r" fsPlain []).isMonorepo = true ↔
     (detectMonorepo "/r" fsPlain []).type ≠ MonorepoType.none) ∧
    detectMonorepo "/r" fsTurboNpm [] =
      { isMonorepo := true, type := MonorepoType.turbo, rootPath := "/r",
        packages := [] } ∧
    (formatDiagnostic idFun "root" 1 (sampleDiag 100)).packageName = "root" :=
  ⟨C10_isMonorepo_iff_type_not_none.1 "/r" fsPlain [] (by simp),
   C10_isMonorepo_iff_type_not_none.2.1 "/r" fsTurboNpm [] []
     [pnpmDetector, yarnDetector, npmDetector, lernaDetector, nxDetector]
     turboDetector rfl (by simp) (by rfl) (by rfl),
   C10_isMonorepo_iff_type_not_none.2.2 idFun
     (some (.parsed [] (.ok [sampleDiag 100]))) neverFlag
     (collectFromPath idFun false
       { name := "root", tsconfig := some (.parsed [] (.ok [sampleDiag 100])) } 0).1
     (by rfl) (formatDiagnostic idFun "root" 1 (sampleDiag 100)) (by decide)⟩

/-! ## TSV round trip -/

theorem splitChar_cons (sep c : Char) (cs : Str) :
    splitChar sep (c :: cs) =
      if c = sep then [] :: splitChar sep cs
      else
        match splitChar sep cs with
        | [] => [[c]]
        | h :: t => (c :: h) :: t := rfl

theorem splitChar_of_not_mem (sep : Char) (s : Str) (h : sep ∉ s) :
    splitChar sep s = [s] := by
  induction s with
  | nil => rfl
  | cons c cs ih =>
    have hc : c ≠ sep := fun hcs => h (hcs ▸ List.mem_cons_self c cs)
    have hcs : sep ∉ cs := fun hm => h (List.mem_cons_of_mem c hm)
    rw [splitChar_cons, if_neg hc, ih hcs]

theorem splitChar_append (sep : Char) (xs ys : Str) (h : sep ∉ xs) :
    splitChar sep (xs ++ sep :: ys) = xs :: splitChar sep ys := by
  induction xs with
  | nil => simp [splitChar_cons]
  | cons c cs ih =>
    have hc : c ≠ sep := fun hcs => h (hcs ▸ List.mem_cons_self c cs)
    have hcs : sep ∉ cs := fun hm => h (List.mem_cons_of_mem c hm)
    rw [List.cons_append, splitChar_cons, if_neg hc, ih hcs]

theorem joinSep_mem (sep : Char) :
    ∀ (parts : List Str) (c : Char), c ∈ joinSep sep parts →
    c = sep ∨ ∃ p ∈ parts, c ∈ p := by
  intro parts
  induction parts with
  | nil => intro c hc; simp [joinSep] at hc
  | cons p rest ih =>
    cases rest with
    | nil =>
      intro c hc
      right
      exact ⟨p, by simp, by simpa [joinSep] using hc⟩
    | cons q rs =>
      intro c hc
      simp only [joinSep] at hc
      rcases List.mem_append.mp hc with h | h
      · right; exact ⟨p, by simp, h⟩
      · rcases List.mem_cons.mp h with h | h
        · left; exact h
        · rcases ih c h with h | ⟨r, hr, hcr⟩
          · left; exact h
          · right; exact ⟨r, by simp [hr], hcr⟩

theorem splitChar_joinSep (sep : Char) :
    ∀ (parts : List Str), parts ≠ [] → (∀ p ∈ parts, sep ∉ p) →
    splitChar sep (joinSep sep parts) = parts := by
  intro parts
  induction parts with
  | nil => intro h; exact absurd rfl h
  | cons p rest ih =>
    intro _ hclean
    cases rest with
    | nil => exact splitChar_of_not_mem sep p (hclean p (by simp))
    | cons q rs =>
      have hp : sep ∉ p := hclean p (by simp)
      show splitChar sep (p ++ sep :: joinSep sep (q :: rs)) = p :: q :: rs
      rw [splitChar_append sep p _ hp,
        ih (by simp) (fun r hr => hclean r (by simp [hr]))]

theorem replaceChar_mem (a b : Char) (s : Str) :
    ∀ c ∈ replaceChar a b s, c = b ∨ c ∈ s := by
  intro c hc
  simp only [replaceChar, List.mem_map] at hc
  obtain ⟨x, hx, rfl⟩ := hc
  by_cases h : x = a
  · rw [if_pos h]; exact Or.inl rfl
  · rw [if_neg h]; exact Or.inr hx

theorem replaceChar_ne (a b : Char) (hba : b ≠ a) (s : Str) :
    ∀ c ∈ replaceChar a b s, c ≠ a := by
  intro c hc
  simp only [replaceChar, List.mem_map] at hc
  obtain ⟨x, _, rfl⟩ := hc
  by_cases h : x = a
  · rw [if_pos h]; exact hba
  · rw [if_neg h]; exact h

theorem escapeField_clean (s : Str) : cleanField (escapeField s) := by
  refine ⟨fun h => ?_, fun h => ?_, fun h => ?_⟩
  · have h1 : '\t' ∈ replaceChar '\n' ' ' (replaceChar '\t' ' ' s) := by
      simpa [escapeField, removeChar, List.mem_filter] using (List.mem_filter.mp h).1
    rcases replaceChar_mem '\n' ' ' (replaceChar '\t' ' ' s) '\t' h1 with h2 | h2
    · exact absurd h2 (by decide)
    · exact replaceChar_ne '\t' ' ' (by decide) s '\t' h2 rfl
  · have h1 : '\n' ∈ replaceChar '\n' ' ' (replaceChar '\t' ' ' s) := by
      simpa [escapeField, removeChar, List.mem_filter] using (List.mem_filter.mp h).1
    exact replaceChar_ne '\n' ' ' (by decide) (replaceChar '\t' ' ' s) '\n' h1 rfl
  · have h1 := (List.mem_filter.mp h).2
    simp at h1

theorem digitChar_clean (m : Nat) :
    Nat.digitChar m ≠ '\t' ∧ Nat.digitChar m ≠ '\n' ∧ Nat.digitChar m ≠ '\r' := by
  by_cases h : m < 16
  · interval_cases m <;> decide
  · unfold Nat.digitChar
    repeat rw [if_neg (by omega)]
    decide

theorem toDigitsCore_clean :
    ∀ (fuel n : Nat) (acc : List Char),
    (∀ c ∈ acc, c ≠ '\t' ∧ c ≠ '\n' ∧ c ≠ '\r') →
    ∀ c ∈ Nat.toDigitsCore 10 fuel n acc, c ≠ '\t' ∧ c ≠ '\n' ∧ c ≠ '\r' := by
  intro fuel
  induction fuel with
  | zero => intro n acc hacc; simpa [Nat.toDigitsCore] using hacc
  | succ f ih =>
    intro n acc hacc c hc
    simp only [Nat.toDigitsCore] at hc
    by_cases h0 : n / 10 = 0
    · rw [if_pos h0] at hc
      rcases List.mem_cons.mp hc with h | h
      · subst h; exact digitChar_clean _
      · exact hacc c h
    · rw [if_neg h0] at hc
      refine ih (n / 10) (Nat.digitChar (n % 10) :: acc) ?_ c hc
      intro x hx
      rcases List.mem_cons.mp hx with h | h
      · subst h; exact digitChar_clean _
      · exact hacc x h

theorem natToStr_clean (n : Nat) : cleanField (natToStr n) := by
  have h := toDigitsCore_clean (n + 1) n [] (by simp)
  exact ⟨fun hm => (h _ hm).1 rfl, fun hm => (h _ hm).2.1 rfl,
    fun hm => (h _ hm).2.2 rfl⟩

theorem headerFields_clean : ∀ f ∈ headerFields, cleanField f := by
  intro f hf
  simp only [headerFields, List.mem_cons, List.not_mem_nil, or_false] at hf
  rcases hf with rfl | rfl | rfl | rfl | rfl <;>
    exact ⟨by decide, by decide, by decide⟩

theorem rowFields_clean (e : TypeScriptError) : ∀ f ∈ rowFields e, cleanField f := by
  intro f hf
  simp only [rowFields, List.mem_cons, List.not_mem_nil, or_false] at hf
  rcases hf with rfl | rfl | rfl | rfl | rfl
  · exact natToStr_clean _
  · exact escapeField_clean _
  · exact escapeField_clean _
  · exact natToStr_clean _
  · exact escapeField_clean _

theorem joinSep_tab_clean (parts : List Str) (h : ∀ p ∈ parts, cleanField p) :
    '\n' ∉ joinSep '\t' parts ∧ '\r' ∉ joinSep '\t' parts := by
  constructor <;> intro hm
  · rcases joinSep_mem '\t' parts '\n' hm with he | ⟨p, hp, hcp⟩
    · exact absurd he (by decide)
    · exact (h p hp).2.1 hcp
  · rcases joinSep_mem '\t' parts '\r' hm with he | ⟨p, hp, hcp⟩
    · exact absurd he (by decide)
    · exact (h p hp).2.2 hcp

/-- Claim C7: for every record list, the generated text split by line yields
one header line plus one line per record, each line split by the tab
delimiter yields exactly five fields, and no field value contains a raw tab,
newline or carriage-return character, whatever the record fields contained. -/
theorem C7_tsv_roundtrip (errors : List TypeScriptError) :
    (splitChar '\n' (generate errors)).length = errors.length + 1 ∧
    ∀ l ∈ splitChar '\n' (generate errors),
      (splitChar '\t' l).length = 5 ∧ ∀ f ∈ splitChar '\t' l, cleanField f := by
  have hlines : splitChar '\n' (generate errors) = tsvHeader :: errors.map tsvRow := by
    refine splitChar_joinSep '\n' _ (by simp) ?_
    intro p hp
    rcases List.mem_cons.mp hp with rfl | hp
    · exact (joinSep_tab_clean headerFields headerFields_clean).1
    · obtain ⟨e, _, rfl⟩ := List.mem_map.mp hp
      exact (joinSep_tab_clean (rowFields e) (rowFields_clean e)).1
  rw [hlines]
  refine ⟨by simp, ?_⟩
  intro l hl
  rcases List.mem_cons.mp hl with rfl | hl
  · have hsplit : splitChar '\t' tsvHeader = headerFields :=
      splitChar_joinSep '\t' headerFields (by simp [headerFields])
        (fun p hp => (headerFields_clean p hp).1)
    rw [hsplit]
    exact ⟨rfl, headerFields_clean⟩
  · obtain ⟨e, _, rfl⟩ := List.mem_map.mp hl
    have hsplit : splitChar '\t' (tsvRow e) = rowFields e :=
      splitChar_joinSep '\t' (rowFields e) (by simp [rowFields])
        (fun p hp => (rowFields_clean e p hp).1)
    rw [hsplit]
    exact ⟨rfl, rowFields_clean e⟩

/-- A record whose string fields contain tabs, newlines and carriage
returns. -/
def nastyErr : TypeScriptError :=
  { id := 1, packageName := "pkg", fileName := "a\tb.ts", errorCode := 2322,
    description := "line1\nline2\rtab\there", line := Option.none,
    column := Option.none, category := "error" }

/-- Witness for C7: a concrete record full of delimiter characters still
yields two lines of five fields each. -/
theorem C7_tsv_roundtrip_witness :
    (splitChar '\n' (generate [nastyErr])).length = 2 ∧
    (splitChar '\t' (tsvRow nastyErr)).length = 5 :=
  ⟨(C7_tsv_roundtrip [nastyErr]).1,
   ((C7_tsv_roundtrip [nastyErr]).2 (tsvRow nastyErr) (by decide)).1⟩

end Typelense
